import Mathlib

/-!
# Career Advisor backend — verification of the parsing / profile-extraction core

This development shallowly embeds the two helper functions of
`src/backend/server.js` that the specification documents:

* `extractProfileFromAnswers` — maps quiz answers to a career profile;
* `parseAnalysis` — parses a free-form text block into a structured analysis.

The staged `src/backend/server.js` is a concatenation of several standalone
server documents (separated by document markers, each with its own imports
and its own `app`).  Two of those documents carry their own declaration of
each helper; they are separate programs, so neither declaration shadows the
other, and the two parsers differ materially: the parser of the first
document (lines 293–312, the updated-SDK server) terminates its summary
capture at the literal prefix `**TOP 3` and its recommendations capture at
the literal prefix `**NEXT`, and pushes the raw (untrimmed) captures, while
the parser of the third document (lines 647–682) uses the full second and
third headers as terminators and trims the captures.  Both are embedded:
`parseAnalysis1` for lines 293–312 and `parseAnalysis` for lines 647–682.
The two profile extractors (lines 249–291 and 595–644) are identical except
for the id-3 "impact" sentence ("Positive social impact" at line 271,
"Making positive social impact" at line 620); the embedding
`extractProfileFromAnswers` follows lines 595–644.

Strings are modelled as `List Char` (the sequence of UTF-16-ish code points the
regexes operate on); the public wrappers take Lean `String`s and work on their
`.data`.
-/

set_option maxRecDepth 200000

namespace CareerAdvisor

/-- The character class of JavaScript's `String.prototype.trim` and of `\s`
in JS regexes: ASCII whitespace, NBSP, BOM, the Unicode space separators and
the line/paragraph separators. -/
def isJsWhitespace (c : Char) : Bool :=
  c = ' ' || c = '\t' || c = '\n' || c = '\r' || c = '\u000b' || c = '\u000c' ||
  c = '\u00a0' || c = '\ufeff' || c = '\u1680' ||
  (0x2000 ≤ c.toNat && c.toNat ≤ 0x200a) ||
  c = '\u2028' || c = '\u2029' || c = '\u202f' || c = '\u205f' || c = '\u3000'

/-- JavaScript `s.trim()`: drop leading and trailing whitespace. -/
def jsTrim (s : List Char) : List Char :=
  ((s.dropWhile isJsWhitespace).reverse.dropWhile isJsWhitespace).reverse

/-- JavaScript `s.split('\n')`: split at every newline.  On the empty string
this yields `[""]`; the result is never the empty list. -/
def splitNl : List Char → List (List Char)
  | [] => [[]]
  | c :: rest =>
      if c = '\n' then [] :: splitNl rest
      else
        match splitNl rest with
        | [] => [[c]]
        | l :: ls => (c :: l) :: ls

/-- Split `s` at the first (leftmost) occurrence of `pat`:
`splitAtSub pat s = some (a, b)` iff `s = a ++ pat ++ b` with `a` shortest
possible, and `none` iff `pat` is not an infix of `s`.  This is the search
performed by an anchored-free JavaScript regex match for a literal pattern. -/
def splitAtSub (pat : List Char) : List Char → Option (List Char × List Char)
  | [] => if pat = [] then some ([], []) else none
  | c :: rest =>
      if pat.isPrefixOf (c :: rest) then some ([], (c :: rest).drop pat.length)
      else
        match splitAtSub pat rest with
        | some (a, b) => some (c :: a, b)
        | none => none

/-- Decimal value of a digit string (`parseInt` on the digit-only capture of
the recommendation regex). -/
def digitsVal (ds : List Char) : Nat :=
  ds.foldl (fun a c => 10 * a + (c.toNat - 48)) 0

/-- The tail `(\d+)%` of the recommendation regex, at a fixed position:
a greedy nonempty digit run that must be followed immediately by `%`.
(Backtracking the greedy `\d+` cannot help: shortening the run leaves a digit
where `%` is required, so only the maximal run can succeed.) -/
def matchNumPct (s : List Char) : Option Nat :=
  let ds := s.takeWhile Char.isDigit
  if ds = [] then none
  else
    match s.drop ds.length with
    | '%' :: _ => some (digitsVal ds)
    | _ => none

/-- Line terminators: the characters a `.` in a flagless JavaScript regex
does not match.  The line regex `/^\d+\. (.*?) - (.*?) Match: (\d+)%/` has
no `s` flag, so its lazy captures cannot cross them; carriage return and
the U+2028/U+2029 separators survive `split('\n')` and can occur in a
line. -/
def isLineTerminator (c : Char) : Bool :=
  c = '\n' || c = '\r' || c = '\u2028' || c = '\u2029'

/-- The tail `(.*?) Match: (\d+)%` of the recommendation regex: the lazy
capture grows one character at a time, stopping at the first position where
the literal ` Match: ` followed by `(\d+)%` matches; it can consume only
characters matched by `.`, so a line terminator it cannot step over makes
the whole match fail. -/
def findDesc : List Char → Option (List Char × Nat)
  | [] => none
  | c :: rest =>
      match (if (" Match: ".data).isPrefixOf (c :: rest)
             then matchNumPct ((c :: rest).drop 8) else none) with
      | some n => some ([], n)
      | none =>
          if isLineTerminator c then none
          else
            match findDesc rest with
            | some (d, n) => some (c :: d, n)
            | none => none

/-- The tail `(.*?) - (.*?) Match: (\d+)%` of the recommendation regex: the
lazy title capture stops at the first ` - ` from which the rest of the
pattern matches, consuming only characters matched by `.` on the way. -/
def findTitle : List Char → Option (List Char × List Char × Nat)
  | [] => none
  | c :: rest =>
      match (if (" - ".data).isPrefixOf (c :: rest)
             then findDesc ((c :: rest).drop 3) else none) with
      | some (d, n) => some ([], d, n)
      | none =>
          if isLineTerminator c then none
          else
            match findTitle rest with
            | some (t, d, n) => some (c :: t, d, n)
            | none => none

/-- One parsed career recommendation.  The source field `match` is a reserved
word in Lean and is rendered `matchVal`. -/
structure Recommendation where
  title : String
  description : String
  matchVal : Nat
deriving DecidableEq, Repr

/-- One line matched against `/^\d+\. (.*?) - (.*?) Match: (\d+)%/` (the
same line regex in both source documents, lines 301 and 664): the raw
captures title, description and match number.  The leading greedy `\d+`
must be the maximal digit run (a shorter run leaves a digit where `\.` is
required). -/
def recLineParse (line : List Char) : Option (List Char × List Char × Nat) :=
  let ds := line.takeWhile Char.isDigit
  if ds = [] then none
  else
    match line.drop ds.length with
    | '.' :: ' ' :: rest => findTitle rest
    | _ => none

/-- Record built by the third document's parser (server.js lines 664–670):
`{ title: m[1].trim(), description: m[2].trim(), match: parseInt(m[3]) }`. -/
def recOfLine (line : List Char) : Option Recommendation :=
  (recLineParse line).map fun p => ⟨String.mk (jsTrim p.1), String.mk (jsTrim p.2.1), p.2.2⟩

/-- Record built by the first document's parser (server.js lines 301–304):
`{ title: m[1], description: m[2], match: parseInt(m[3]) }` — the captures
are not trimmed there. -/
def recOfLine1 (line : List Char) : Option Recommendation :=
  (recLineParse line).map fun p => ⟨String.mk p.1, String.mk p.2.1, p.2.2⟩

/-- The structured analysis record built by `parseAnalysis`. -/
structure StructuredAnalysis where
  summary : String
  recommendations : List Recommendation
  nextSteps : List String
deriving DecidableEq, Repr

def header1 : List Char := "**CAREER PROFILE ANALYSIS:**".data
def header2 : List Char := "**TOP 3 CAREER RECOMMENDATIONS:**".data
def header3 : List Char := "**NEXT STEPS:**".data

/-- The `forEach`/`push` accumulation over recommendation lines
(server.js lines 662–672). -/
def recStep (acc : List Recommendation) (line : List Char) : List Recommendation :=
  match recOfLine line with
  | some r => acc ++ [r]
  | none => acc

/-- Embedding of `line.replace(/^[-â€¢]\s*/, '')` (server.js line 678).  The source file is
mojibake-encoded at this point: the character class contains `-`, `â`
(U+00E2), `€` (U+20AC) and `¢` (U+00A2) — not the bullet `•`.  The regex
strips one such character and the following greedy whitespace run, at the
start of the line only; a non-matching line is returned unchanged. -/
def stripBullet : List Char → List Char
  | [] => []
  | c :: rest =>
      if c = '-' || c = '\u00e2' || c = '\u20ac' || c = '\u00a2' then rest.dropWhile isJsWhitespace
      else c :: rest

/-- Embedding of the third document's `parseAnalysis` (server.js lines
647–682).

Each section is extracted by a regex of the form
`/HEADER_A\n*(.*?)\n*HEADER_B/s` (or `/HEADER\n*(.*?)$/s` for the last one).
Leftmost matching makes the match start at the first occurrence of `HEADER_A`
that has an occurrence of `HEADER_B` after it — which is the first occurrence
of `HEADER_A` outright whenever the whole regex matches at all, since any
`HEADER_B` occurring after a later `HEADER_A` also occurs after the first.
The lazy `(.*?)` then selects the earliest following occurrence of
`HEADER_B`.  The greedy `\n*` paddings only move newline characters out of
the capture; every capture is immediately `.trim()`ed, so the padded and
unpadded captures trim to the same string and the paddings are dropped from
the model.  With the `s` flag and no `m` flag, `$` matches only at the end of
the input, so the next-steps capture runs to the end of the text. -/
def parseAnalysis (analysisText : String) : StructuredAnalysis :=
  let summary : String :=
    match splitAtSub header1 analysisText.data with
    | some (_, rest) =>
        match splitAtSub header2 rest with
        | some (mid, _) => String.mk (jsTrim mid)
        | none => ""
    | none => ""
  let recommendations : List Recommendation :=
    match splitAtSub header2 analysisText.data with
    | some (_, rest) =>
        match splitAtSub header3 rest with
        | some (mid, _) => (splitNl (jsTrim mid)).foldl recStep []
        | none => []
    | none => []
  let nextSteps : List String :=
    match splitAtSub header3 analysisText.data with
    | some (_, rest) =>
        (splitNl (jsTrim rest)).map (fun l => String.mk (jsTrim (stripBullet l)))
    | none => []
  ⟨summary, recommendations, nextSteps⟩

/-- The literal `**TOP 3` terminating the first document's summary capture
(server.js line 295). -/
def topMarker : List Char := "**TOP 3".data

/-- The literal `**NEXT` terminating the first document's recommendations
capture (server.js line 297). -/
def nextMarker : List Char := "**NEXT".data

/-- The `forEach`/`push` accumulation of the first document's parser
(server.js lines 299–305), using the untrimmed record builder. -/
def recStep1 (acc : List Recommendation) (line : List Char) : List Recommendation :=
  match recOfLine1 line with
  | some r => acc ++ [r]
  | none => acc

/-- Embedding of `l.replace(/^[-•]\s*/, "")` (server.js line 309): strips
one leading `-` or `•` (U+2022, a real bullet in this document) and the
following greedy whitespace run; a non-matching line is unchanged. -/
def stripBullet1 : List Char → List Char
  | [] => []
  | c :: rest =>
      if c = '-' || c = '•' then rest.dropWhile isJsWhitespace
      else c :: rest

/-- Embedding of the first document's `parseAnalysis` (server.js lines
293–312, the updated-SDK server).

Its regexes have no `\n*` paddings and use `[\s\S]*?` (any character, lazy)
for the captures.  The summary capture
`/\*\*CAREER PROFILE ANALYSIS:\*\*([\s\S]*?)\*\*TOP 3/` ends at the
earliest occurrence of the literal prefix `**TOP 3` — not the full second
header; the recommendations capture
`/\*\*TOP 3 CAREER RECOMMENDATIONS:\*\*([\s\S]*?)\*\*NEXT/` ends at the
literal prefix `**NEXT` — not the full third header; the next-steps capture
`/\*\*NEXT STEPS:\*\*([\s\S]*)$/` runs greedily from the first occurrence
of the third header to the end of the input.  Leftmost matching picks the
first occurrence of the opening header followed by its terminator, as for
the other parser.  Records keep the raw captures (`recOfLine1`) and the
bullet class is the real `[-•]` (`stripBullet1`). -/
def parseAnalysis1 (text : String) : StructuredAnalysis :=
  let summary : String :=
    match splitAtSub header1 text.data with
    | some (_, rest) =>
        match splitAtSub topMarker rest with
        | some (mid, _) => String.mk (jsTrim mid)
        | none => ""
    | none => ""
  let recommendations : List Recommendation :=
    match splitAtSub header2 text.data with
    | some (_, rest) =>
        match splitAtSub nextMarker rest with
        | some (mid, _) => (splitNl (jsTrim mid)).foldl recStep1 []
        | none => []
    | none => []
  let nextSteps : List String :=
    match splitAtSub header3 text.data with
    | some (_, rest) =>
        (splitNl (jsTrim rest)).map (fun l => String.mk (jsTrim (stripBullet1 l)))
    | none => []
  ⟨summary, recommendations, nextSteps⟩

/-- Value of a maximal nonempty run of digits accepted by `digit?`, read in
base `base`; `none` when the run is empty.  This is the digit-consuming core
of JavaScript `parseInt`. -/
def parseRun (digit? : Char → Option Nat) (base : Nat) (s : List Char) : Option Nat :=
  let run := s.takeWhile (fun c => (digit? c).isSome)
  if run = [] then none
  else some (run.foldl (fun a c => base * a + (digit? c).getD 0) 0)

/-- Decimal digit value. -/
def decDigit? (c : Char) : Option Nat :=
  if c.isDigit then some (c.toNat - 48) else none

/-- Hexadecimal digit value. -/
def hexDigit? (c : Char) : Option Nat :=
  if c.isDigit then some (c.toNat - 48)
  else if 'a' ≤ c ∧ c ≤ 'f' then some (c.toNat - 87)
  else if 'A' ≤ c ∧ c ≤ 'F' then some (c.toNat - 55)
  else none

/-- JavaScript `parseInt(key)` with no radix argument, as applied to the
question-id keys (server.js line 606): skip leading whitespace, read an
optional sign, then either a `0x`/`0X`-prefixed hexadecimal digit run or a
decimal digit run, stopping at the first invalid character.  `none` models
`NaN` (no digits), which matches none of the `switch` cases. -/
def jsParseInt (key : String) : Option Int :=
  let s := key.data.dropWhile isJsWhitespace
  let (sign, s') : Int × List Char :=
    match s with
    | '-' :: t => (-1, t)
    | '+' :: t => (1, t)
    | t => (1, t)
  match s' with
  | '0' :: x :: t =>
      if x = 'x' ∨ x = 'X' then (parseRun hexDigit? 16 t).map (fun n => sign * n)
      else (parseRun decDigit? 10 s').map (fun n => sign * n)
  | _ => (parseRun decDigit? 10 s').map (fun n => sign * n)

/-- The career profile record built by `extractProfileFromAnswers`. -/
@[ext]
structure CareerProfile where
  interests : List String
  skills : List String
  experience : String
  workStyle : String
  careerGoals : String
  industry : String
deriving DecidableEq, Repr

/-- The all-default profile the extractor starts from
(server.js lines 596–603). -/
def emptyProfile : CareerProfile :=
  { interests := [], skills := [], experience := "", workStyle := "",
    careerGoals := "", industry := "" }

/-- The body of the `Object.entries(answers).forEach` callback of
`extractProfileFromAnswers` (server.js lines 605–641; the first document's
copy, lines 259–289, is identical except for the id-3 "impact" sentence):
a `switch` on `parseInt(questionId)` whose cases either append
interest/skill tags, set a scalar field, or (for unrecognized ids and
`NaN`) do nothing. -/
def applyAnswer (profile : CareerProfile) (entry : String × String) : CareerProfile :=
  let qid := jsParseInt entry.1
  let answer := entry.2
  if qid = some 1 then
    if answer = "analytical" then
      { profile with interests := profile.interests ++ ["Problem Solving", "Analysis"] }
    else if answer = "creative" then
      { profile with interests := profile.interests ++ ["Creative Work", "Design"] }
    else if answer = "people-oriented" then
      { profile with interests := profile.interests ++ ["People Management", "Communication"] }
    else if answer = "leadership" then
      { profile with interests := profile.interests ++ ["Leadership", "Management"] }
    else profile
  else if qid = some 2 then { profile with workStyle := answer }
  else if qid = some 3 then
    if answer = "financial" then { profile with careerGoals := "Financial success and stability" }
    else if answer = "impact" then { profile with careerGoals := "Making positive social impact" }
    else if answer = "growth" then { profile with careerGoals := "Personal and professional growth" }
    else if answer = "recognition" then { profile with careerGoals := "Achievement and recognition" }
    else profile
  else if qid = some 4 then { profile with industry := answer }
  else if qid = some 7 then
    if answer = "technical" then
      { profile with skills := profile.skills ++ ["Technical Skills", "Programming"] }
    else if answer = "communication" then
      { profile with skills := profile.skills ++ ["Communication", "Presentation"] }
    else if answer = "leadership-skills" then
      { profile with skills := profile.skills ++ ["Leadership", "Management"] }
    else if answer = "creative-skills" then
      { profile with skills := profile.skills ++ ["Creative Skills", "Design"] }
    else profile
  else if qid = some 10 then { profile with experience := answer }
  else profile

/-- Embedding of `extractProfileFromAnswers` (server.js lines 595–644; the
first document's copy, lines 249–291, differs only in the id-3 "impact"
sentence).  A `QuizAnswers` object is modelled by its
`Object.entries` list — key/value pairs in the object's iteration order;
the `forEach` over those entries is a left fold of `applyAnswer` starting
from the all-default profile. -/
def extractProfileFromAnswers (answers : List (String × String)) : CareerProfile :=
  answers.foldl applyAnswer emptyProfile

/-! ## Properties of the generic string-search helpers -/

/-- Soundness of `splitAtSub`: a successful split is a decomposition of `s`. -/
theorem splitAtSub_sound {pat : List Char} :
    ∀ {s a b : List Char}, splitAtSub pat s = some (a, b) → s = a ++ pat ++ b := by
  intro s
  induction s with
  | nil =>
    intro a b h
    simp only [splitAtSub] at h
    split at h
    · next hp => cases h; simp [hp]
    · cases h
  | cons c rest ih =>
    intro a b h
    simp only [splitAtSub] at h
    by_cases hp : pat.isPrefixOf (c :: rest)
    · rw [if_pos hp] at h
      cases h
      obtain ⟨t, ht⟩ := List.isPrefixOf_iff_prefix.1 hp
      conv_lhs => rw [← ht]
      simp [← ht, List.drop_left]
    · rw [if_neg hp] at h
      cases hrec : splitAtSub pat rest with
      | none => rw [hrec] at h; cases h
      | some p =>
        obtain ⟨a₀, b₀⟩ := p
        rw [hrec] at h
        cases h
        simpa using ih hrec

/-- Leftmostness of `splitAtSub`: a successful split has the shortest possible
prefix. -/
theorem splitAtSub_min {pat : List Char} :
    ∀ {s a b : List Char}, splitAtSub pat s = some (a, b) →
      ∀ a' b', s = a' ++ pat ++ b' → a.length ≤ a'.length := by
  intro s
  induction s with
  | nil =>
    intro a b h a' b' _
    simp only [splitAtSub] at h
    split at h
    · cases h; simp
    · cases h
  | cons c rest ih =>
    intro a b h a' b' hs
    simp only [splitAtSub] at h
    by_cases hp : pat.isPrefixOf (c :: rest)
    · rw [if_pos hp] at h; cases h; simp
    · rw [if_neg hp] at h
      cases hrec : splitAtSub pat rest with
      | none => rw [hrec] at h; cases h
      | some p =>
        obtain ⟨a₀, b₀⟩ := p
        rw [hrec] at h
        cases h
        match a', hs with
        | [], hs =>
          have hpre := List.isPrefixOf_iff_prefix.2 ⟨b', by simpa using hs.symm⟩
          exact absurd hpre hp
        | c' :: a'', hs =>
          have : rest = a'' ++ pat ++ b' := by simpa using (by simpa using hs : c = c' ∧ rest = a'' ++ (pat ++ b')).2
          simpa using Nat.succ_le_succ (ih hrec a'' b' this)

/-- Failure of `splitAtSub` happens exactly when the pattern is not an infix. -/
theorem splitAtSub_eq_none_iff {pat s : List Char} :
    splitAtSub pat s = none ↔ ¬ pat <:+: s := by
  constructor
  · intro h hinf
    obtain ⟨a, t, hat⟩ := hinf
    have : ∀ s a b, s = a ++ pat ++ b → splitAtSub pat s ≠ none := by
      intro s
      induction s with
      | nil =>
        intro a b hs
        have hp : pat = [] := by
          cases List.append_eq_nil.1 ((List.append_assoc a pat b).symm.trans hs.symm) with
          | intro h1 h2 => exact (List.append_eq_nil.1 h2).1
        simp [splitAtSub, hp]
      | cons c rest ih =>
        intro a b hs
        simp only [splitAtSub]
        by_cases hp : pat.isPrefixOf (c :: rest)
        · simp [hp]
        · rw [if_neg hp]
          match a, hs with
          | [], hs =>
            have hpre := List.isPrefixOf_iff_prefix.2 ⟨b, by simpa using hs.symm⟩
            exact absurd hpre hp
          | c' :: a'', hs =>
            have hrest : rest = a'' ++ pat ++ b := by
              simpa using (by simpa using hs : c = c' ∧ rest = a'' ++ (pat ++ b)).2
            cases hrec : splitAtSub pat rest with
            | none => exact absurd hrec (ih a'' b hrest)
            | some p => simp
    exact this s a t hat.symm h
  · intro hinf
    cases h : splitAtSub pat s with
    | none => rfl
    | some p =>
      obtain ⟨a, b⟩ := p
      exact absurd ⟨a, b, (splitAtSub_sound h).symm⟩ hinf

/-- Completeness of `splitAtSub`: the decomposition at the first occurrence is
found. -/
theorem splitAtSub_eq_some_of_min {pat s a b : List Char}
    (hdec : s = a ++ pat ++ b)
    (hmin : ∀ a' b', s = a' ++ pat ++ b' → a.length ≤ a'.length) :
    splitAtSub pat s = some (a, b) := by
  cases h : splitAtSub pat s with
  | none =>
    exact absurd ⟨a, b, hdec.symm⟩ (splitAtSub_eq_none_iff.1 h)
  | some p =>
    obtain ⟨a₀, b₀⟩ := p
    have hs₀ := splitAtSub_sound h
    have hlen : a₀.length = a.length :=
      Nat.le_antisymm (splitAtSub_min h a b hdec) (hmin a₀ b₀ hs₀)
    have hcat : a₀ ++ (pat ++ b₀) = a ++ (pat ++ b) := by
      rw [← List.append_assoc, ← List.append_assoc, ← hs₀, ← hdec]
    obtain ⟨ha, hb⟩ := List.append_inj hcat hlen
    rw [ha, List.append_cancel_left hb]

/-- JavaScript `split` never returns an empty array. -/
theorem splitNl_ne_nil : ∀ s : List Char, splitNl s ≠ [] := by
  intro s
  induction s with
  | nil => simp [splitNl]
  | cons c rest ih =>
    simp only [splitNl]
    by_cases hc : c = '\n'
    · simp [hc]
    · rw [if_neg hc]
      cases h : splitNl rest with
      | nil => simp
      | cons l ls => simp

/-- The `forEach`/`push` loop over recommendation lines collects exactly the
successfully parsed lines, in order. -/
theorem foldl_recStep :
    ∀ (lines : List (List Char)) (acc : List Recommendation),
      lines.foldl recStep acc = acc ++ lines.filterMap recOfLine := by
  intro lines
  induction lines with
  | nil => simp
  | cons l ls ih =>
    intro acc
    cases h : recOfLine l <;>
      simp [List.foldl_cons, recStep, h, ih, List.filterMap_cons]

/-- The `forEach`/`push` loop of the first document collects exactly the
successfully parsed lines, in order. -/
theorem foldl_recStep1 :
    ∀ (lines : List (List Char)) (acc : List Recommendation),
      lines.foldl recStep1 acc = acc ++ lines.filterMap recOfLine1 := by
  intro lines
  induction lines with
  | nil => simp
  | cons l ls ih =>
    intro acc
    cases h : recOfLine1 l <;>
      simp [List.foldl_cons, recStep1, h, ih, List.filterMap_cons]

/-! ## Field-wise characterization of the profile extractor

The `case 1` and `case 7` branches of the `switch` translate to the
following lookup tables; `case 3` to an optional sentence. -/

/-- Interest tags appended by the `case 1` branch. -/
def interestTags (answer : String) : List String :=
  if answer = "analytical" then ["Problem Solving", "Analysis"]
  else if answer = "creative" then ["Creative Work", "Design"]
  else if answer = "people-oriented" then ["People Management", "Communication"]
  else if answer = "leadership" then ["Leadership", "Management"]
  else []

/-- Skill tags appended by the `case 7` branch. -/
def skillTags (answer : String) : List String :=
  if answer = "technical" then ["Technical Skills", "Programming"]
  else if answer = "communication" then ["Communication", "Presentation"]
  else if answer = "leadership-skills" then ["Leadership", "Management"]
  else if answer = "creative-skills" then ["Creative Skills", "Design"]
  else []

/-- Career-goal sentence assigned by the `case 3` branch; `none` for
unrecognized answer codes (which leave the field untouched). -/
def goalSentence? (answer : String) : Option String :=
  if answer = "financial" then some "Financial success and stability"
  else if answer = "impact" then some "Making positive social impact"
  else if answer = "growth" then some "Personal and professional growth"
  else if answer = "recognition" then some "Achievement and recognition"
  else none

set_option maxHeartbeats 1600000 in
theorem applyAnswer_interests (p : CareerProfile) (e : String × String) :
    (applyAnswer p e).interests =
      p.interests ++ (if jsParseInt e.1 = some 1 then interestTags e.2 else []) := by
  simp only [applyAnswer, interestTags]
  split_ifs <;> first | rfl | (simp_all; done) | (simp; done) | simp_all

set_option maxHeartbeats 1600000 in
theorem applyAnswer_skills (p : CareerProfile) (e : String × String) :
    (applyAnswer p e).skills =
      p.skills ++ (if jsParseInt e.1 = some 7 then skillTags e.2 else []) := by
  simp only [applyAnswer, skillTags]
  split_ifs <;> first | rfl | (simp_all; done) | (simp; done) | simp_all

set_option maxHeartbeats 1600000 in
theorem applyAnswer_workStyle (p : CareerProfile) (e : String × String) :
    (applyAnswer p e).workStyle =
      if jsParseInt e.1 = some 2 then e.2 else p.workStyle := by
  simp only [applyAnswer]
  split_ifs <;> first | rfl | (simp_all; done) | (simp; done) | simp_all

set_option maxHeartbeats 1600000 in
theorem applyAnswer_industry (p : CareerProfile) (e : String × String) :
    (applyAnswer p e).industry =
      if jsParseInt e.1 = some 4 then e.2 else p.industry := by
  simp only [applyAnswer]
  split_ifs <;> first | rfl | (simp_all; done) | (simp; done) | simp_all

set_option maxHeartbeats 1600000 in
theorem applyAnswer_experience (p : CareerProfile) (e : String × String) :
    (applyAnswer p e).experience =
      if jsParseInt e.1 = some 10 then e.2 else p.experience := by
  simp only [applyAnswer]
  split_ifs <;> first | rfl | (simp_all; done) | (simp; done) | simp_all

set_option maxHeartbeats 1600000 in
theorem applyAnswer_careerGoals (p : CareerProfile) (e : String × String) :
    (applyAnswer p e).careerGoals =
      (if jsParseInt e.1 = some 3 then goalSentence? e.2 else none).getD p.careerGoals := by
  simp only [applyAnswer, goalSentence?]
  split_ifs <;> first | rfl | (simp_all; done) | (simp; done) | simp_all

/-- An entry whose key parses to none of the recognized question ids
(including `NaN` keys) leaves the profile unchanged. -/
theorem applyAnswer_unrecognized (p : CareerProfile) (e : String × String)
    (h1 : jsParseInt e.1 ≠ some 1) (h2 : jsParseInt e.1 ≠ some 2)
    (h3 : jsParseInt e.1 ≠ some 3) (h4 : jsParseInt e.1 ≠ some 4)
    (h7 : jsParseInt e.1 ≠ some 7) (h10 : jsParseInt e.1 ≠ some 10) :
    applyAnswer p e = p := by
  simp only [applyAnswer]
  rw [if_neg h1, if_neg h2, if_neg h3, if_neg h4, if_neg h7, if_neg h10]

/-- Last-write-wins folding of a sequence of assignments to a scalar field. -/
def lastWins (updates : List String) (v : String) : String :=
  updates.foldl (fun _ g => g) v

theorem lastWins_const {updates : List String} {g : String}
    (hall : ∀ x ∈ updates, x = g) (hne : updates ≠ []) (v : String) :
    lastWins updates v = g := by
  induction updates generalizing v with
  | nil => exact absurd rfl hne
  | cons u us ih =>
    by_cases hus : us = []
    · subst hus
      simpa [lastWins] using hall u (by simp)
    · simpa [lastWins] using ih (fun x hx => hall x (by simp [hx])) hus u

/-- The interests accumulated by the extractor: the id-1 entries contribute
their tag lists in entry order, everything else contributes nothing. -/
theorem foldl_interests :
    ∀ (l : List (String × String)) (p : CareerProfile),
      (l.foldl applyAnswer p).interests =
        p.interests ++
          l.flatMap (fun e => if jsParseInt e.1 = some 1 then interestTags e.2 else []) := by
  intro l
  induction l with
  | nil => simp
  | cons e es ih =>
    intro p
    simp [List.foldl_cons, ih, applyAnswer_interests, List.append_assoc]

/-- The skills accumulated by the extractor, analogously from id-7 entries. -/
theorem foldl_skills :
    ∀ (l : List (String × String)) (p : CareerProfile),
      (l.foldl applyAnswer p).skills =
        p.skills ++
          l.flatMap (fun e => if jsParseInt e.1 = some 7 then skillTags e.2 else []) := by
  intro l
  induction l with
  | nil => simp
  | cons e es ih =>
    intro p
    simp [List.foldl_cons, ih, applyAnswer_skills, List.append_assoc]

theorem foldl_workStyle :
    ∀ (l : List (String × String)) (p : CareerProfile),
      (l.foldl applyAnswer p).workStyle =
        lastWins (l.filterMap fun e => if jsParseInt e.1 = some 2 then some e.2 else none)
          p.workStyle := by
  intro l
  induction l with
  | nil => simp [lastWins]
  | cons e es ih =>
    intro p
    by_cases h : jsParseInt e.1 = some 2 <;>
      simp [List.foldl_cons, ih, applyAnswer_workStyle, h, lastWins, List.filterMap_cons]

theorem foldl_industry :
    ∀ (l : List (String × String)) (p : CareerProfile),
      (l.foldl applyAnswer p).industry =
        lastWins (l.filterMap fun e => if jsParseInt e.1 = some 4 then some e.2 else none)
          p.industry := by
  intro l
  induction l with
  | nil => simp [lastWins]
  | cons e es ih =>
    intro p
    by_cases h : jsParseInt e.1 = some 4 <;>
      simp [List.foldl_cons, ih, applyAnswer_industry, h, lastWins, List.filterMap_cons]

theorem foldl_experience :
    ∀ (l : List (String × String)) (p : CareerProfile),
      (l.foldl applyAnswer p).experience =
        lastWins (l.filterMap fun e => if jsParseInt e.1 = some 10 then some e.2 else none)
          p.experience := by
  intro l
  induction l with
  | nil => simp [lastWins]
  | cons e es ih =>
    intro p
    by_cases h : jsParseInt e.1 = some 10 <;>
      simp [List.foldl_cons, ih, applyAnswer_experience, h, lastWins, List.filterMap_cons]

theorem foldl_careerGoals :
    ∀ (l : List (String × String)) (p : CareerProfile),
      (l.foldl applyAnswer p).careerGoals =
        lastWins (l.filterMap fun e => if jsParseInt e.1 = some 3 then goalSentence? e.2 else none)
          p.careerGoals := by
  intro l
  induction l with
  | nil => simp [lastWins]
  | cons e es ih =>
    intro p
    by_cases h : jsParseInt e.1 = some 3
    · cases hg : goalSentence? e.2 <;>
        simp [List.foldl_cons, ih, applyAnswer_careerGoals, h, hg, lastWins, List.filterMap_cons]
    · simp [List.foldl_cons, ih, applyAnswer_careerGoals, h, lastWins, List.filterMap_cons]

/-- Two entries whose keys do not parse to the same numeric question id can be
applied in either order. -/
theorem applyAnswer_comm (e₁ e₂ : String × String)
    (h : jsParseInt e₁.1 ≠ jsParseInt e₂.1 ∨ jsParseInt e₁.1 = none)
    (p : CareerProfile) :
    applyAnswer (applyAnswer p e₁) e₂ = applyAnswer (applyAnswer p e₂) e₁ := by
  have hno : ∀ n : Int, ¬ (jsParseInt e₁.1 = some n ∧ jsParseInt e₂.1 = some n) := by
    rintro n ⟨h₁, h₂⟩
    rcases h with h | h
    · exact h (h₁.trans h₂.symm)
    · rw [h] at h₁; cases h₁
  have tagIf : ∀ (m : Int) (tags : String → List String) (xs : List String),
      xs ++ (if jsParseInt e₁.1 = some m then tags e₁.2 else []) ++
          (if jsParseInt e₂.1 = some m then tags e₂.2 else []) =
        xs ++ (if jsParseInt e₂.1 = some m then tags e₂.2 else []) ++
          (if jsParseInt e₁.1 = some m then tags e₁.2 else []) := by
    intro m tags xs
    by_cases h₁ : jsParseInt e₁.1 = some m <;> by_cases h₂ : jsParseInt e₂.1 = some m
    · exact absurd ⟨h₁, h₂⟩ (hno m)
    · simp [h₁, h₂]
    · simp [h₁, h₂]
    · simp [h₁, h₂]
  have scalarIf : ∀ (m : Int) (v : String),
      (if jsParseInt e₂.1 = some m then e₂.2
       else if jsParseInt e₁.1 = some m then e₁.2 else v) =
      (if jsParseInt e₁.1 = some m then e₁.2
       else if jsParseInt e₂.1 = some m then e₂.2 else v) := by
    intro m v
    by_cases h₁ : jsParseInt e₁.1 = some m <;> by_cases h₂ : jsParseInt e₂.1 = some m
    · exact absurd ⟨h₁, h₂⟩ (hno m)
    · simp [h₁, h₂]
    · simp [h₁, h₂]
    · simp [h₁, h₂]
  have goalIf : ∀ (v : String),
      ((if jsParseInt e₂.1 = some 3 then goalSentence? e₂.2 else none).getD
        ((if jsParseInt e₁.1 = some 3 then goalSentence? e₁.2 else none).getD v)) =
      ((if jsParseInt e₁.1 = some 3 then goalSentence? e₁.2 else none).getD
        ((if jsParseInt e₂.1 = some 3 then goalSentence? e₂.2 else none).getD v)) := by
    intro v
    by_cases h₁ : jsParseInt e₁.1 = some 3 <;> by_cases h₂ : jsParseInt e₂.1 = some 3
    · exact absurd ⟨h₁, h₂⟩ (hno 3)
    · simp [h₁, h₂]
    · simp [h₁, h₂]
    · simp [h₁, h₂]
  apply CareerProfile.ext
  · rw [applyAnswer_interests, applyAnswer_interests,
      applyAnswer_interests, applyAnswer_interests]
    exact tagIf 1 interestTags p.interests
  · rw [applyAnswer_skills, applyAnswer_skills, applyAnswer_skills, applyAnswer_skills]
    exact tagIf 7 skillTags p.skills
  · rw [applyAnswer_experience, applyAnswer_experience,
      applyAnswer_experience, applyAnswer_experience]
    exact scalarIf 10 p.experience
  · rw [applyAnswer_workStyle, applyAnswer_workStyle,
      applyAnswer_workStyle, applyAnswer_workStyle]
    exact scalarIf 2 p.workStyle
  · rw [applyAnswer_careerGoals, applyAnswer_careerGoals,
      applyAnswer_careerGoals, applyAnswer_careerGoals]
    exact goalIf p.careerGoals
  · rw [applyAnswer_industry, applyAnswer_industry,
      applyAnswer_industry, applyAnswer_industry]
    exact scalarIf 4 p.industry

/-! ## Shape of successfully parsed recommendation lines -/

/-- Dropping the length of `l.takeWhile p` from `l` is `l.dropWhile p`. -/
theorem drop_takeWhile_length (p : Char → Bool) :
    ∀ s : List Char, s.drop (s.takeWhile p).length = s.dropWhile p := by
  intro s
  induction s with
  | nil => rfl
  | cons c cs ih =>
    by_cases h : p c <;> simp [List.takeWhile_cons, List.dropWhile_cons, h, ih]

/-- Behaviour of `takeWhile` and `dropWhile` on a run of satisfying characters followed by a
non-satisfying one. -/
theorem takeWhile_run (p : Char → Bool) (xs : List Char) (y : Char) (ys : List Char)
    (hall : ∀ c ∈ xs, p c) (hy : ¬ p y) :
    (xs ++ y :: ys).takeWhile p = xs ∧ (xs ++ y :: ys).dropWhile p = y :: ys := by
  induction xs with
  | nil => simp [List.takeWhile_cons, List.dropWhile_cons, hy]
  | cons x xs ih =>
    have hx : p x := hall x (by simp)
    have ih' := ih (fun c hc => hall c (by simp [hc]))
    simp [List.takeWhile_cons, List.dropWhile_cons, hx, ih'.1, ih'.2]

/-- Soundness of the `(\d+)%` tail matcher. -/
theorem matchNumPct_sound {s : List Char} {n : Nat} (h : matchNumPct s = some n) :
    ∃ ms rest, s = ms ++ '%' :: rest ∧ ms ≠ [] ∧ (∀ c ∈ ms, c.isDigit) ∧
      n = digitsVal ms := by
  simp only [matchNumPct] at h
  by_cases hds : s.takeWhile Char.isDigit = []
  · rw [if_pos hds] at h; cases h
  · rw [if_neg hds, drop_takeWhile_length] at h
    cases hdrop : s.dropWhile Char.isDigit with
    | nil => rw [hdrop] at h; cases h
    | cons c rest =>
      rw [hdrop] at h
      by_cases hc : c = '%'
      · subst hc
        refine ⟨s.takeWhile Char.isDigit, rest, ?_, hds, ?_, ?_⟩
        · rw [← hdrop, List.takeWhile_append_dropWhile]
        · exact fun c hc => List.mem_takeWhile_imp hc
        · cases h; rfl
      · exfalso
        revert h
        cases c
        simp_all

/-- Completeness of the `(\d+)%` tail matcher. -/
theorem matchNumPct_complete {ms : List Char} (rest : List Char)
    (hne : ms ≠ []) (hdig : ∀ c ∈ ms, c.isDigit) :
    matchNumPct (ms ++ '%' :: rest) = some (digitsVal ms) := by
  obtain ⟨htw, hdw⟩ := takeWhile_run Char.isDigit ms '%' rest hdig (by decide)
  simp only [matchNumPct, drop_takeWhile_length, htw, hdw, if_neg hne, List.drop_left]

/-- Soundness of the `(.*?) Match: (\d+)%` tail matcher: a successful match
decomposes the input at the literal ` Match: `, and the description capture
contains no line terminator. -/
theorem findDesc_sound :
    ∀ {s d : List Char} {n : Nat}, findDesc s = some (d, n) →
      ∃ rest, s = d ++ " Match: ".data ++ rest ∧ matchNumPct rest = some n ∧
        ∀ x ∈ d, isLineTerminator x = false := by
  intro s
  induction s with
  | nil => intro d n h; cases h
  | cons c cs ih =>
    intro d n h
    simp only [findDesc] at h
    cases hif : (if (" Match: ".data).isPrefixOf (c :: cs)
                 then matchNumPct ((c :: cs).drop 8) else none) with
    | some m =>
      rw [hif] at h
      cases h
      by_cases hp : (" Match: ".data).isPrefixOf (c :: cs)
      · rw [if_pos hp] at hif
        obtain ⟨t, ht⟩ := List.isPrefixOf_iff_prefix.1 hp
        refine ⟨(c :: cs).drop 8, ?_, hif, by simp⟩
        conv_lhs => rw [← ht]
        have hteq : t = (c :: cs).drop 8 := by
          conv_rhs => rw [← ht]
          simp
        rw [← hteq]
        simp
      · rw [if_neg hp] at hif; cases hif
    | none =>
      rw [hif] at h
      by_cases hterm : isLineTerminator c = true
      · rw [if_pos hterm] at h; cases h
      · rw [if_neg hterm] at h
        cases hrec : findDesc cs with
        | none => rw [hrec] at h; cases h
        | some p =>
          obtain ⟨d', n'⟩ := p
          rw [hrec] at h
          cases h
          obtain ⟨rest, hcs, hmn, hclean⟩ := ih hrec
          refine ⟨rest, by simp [hcs], hmn, ?_⟩
          intro x hx
          rcases List.mem_cons.1 hx with hx | hx
          · rw [hx]; simpa using hterm
          · exact hclean x hx

/-- Completeness of the `(.*?) Match: (\d+)%` tail matcher on captures free
of line terminators. -/
theorem findDesc_complete :
    ∀ (d : List Char) {rest : List Char} {n : Nat}, matchNumPct rest = some n →
      (∀ x ∈ d, isLineTerminator x = false) →
      (findDesc (d ++ " Match: ".data ++ rest)).isSome := by
  intro d
  induction d with
  | nil =>
    intro rest n hmn _
    have hp : (" Match: ".data).isPrefixOf ((" Match: ".data : List Char) ++ rest) :=
      List.isPrefixOf_iff_prefix.2 ⟨rest, rfl⟩
    have hdrop : ((" Match: ".data : List Char) ++ rest).drop 8 = rest := rfl
    simp only [List.nil_append]
    rw [show ((" Match: ".data : List Char) ++ rest) =
        ' ' :: ("Match: ".data ++ rest) from rfl]
    simp only [findDesc]
    rw [show (' ' :: ("Match: ".data ++ rest) : List Char) =
        " Match: ".data ++ rest from rfl, if_pos hp, hdrop, hmn]
    rfl
  | cons c cs ih =>
    intro rest n hmn hclean
    simp only [List.cons_append, findDesc]
    cases hif : (if (" Match: ".data).isPrefixOf (c :: (cs ++ " Match: ".data ++ rest))
                 then matchNumPct ((c :: (cs ++ " Match: ".data ++ rest)).drop 8)
                 else none) with
    | some m => simp
    | none =>
      have hc : isLineTerminator c = false := hclean c (by simp)
      have hs := ih hmn fun x hx => hclean x (by simp [hx])
      cases hrec : findDesc (cs ++ " Match: ".data ++ rest) with
      | none => rw [hrec] at hs; cases hs
      | some p => obtain ⟨d', n'⟩ := p; simp [hc, hrec]

/-- Soundness of the `(.*?) - (.*?) Match: (\d+)%` tail matcher: a
successful match decomposes the input at the literal ` - `, and the title
capture contains no line terminator. -/
theorem findTitle_sound :
    ∀ {s t d : List Char} {n : Nat}, findTitle s = some (t, d, n) →
      ∃ s', s = t ++ " - ".data ++ s' ∧ findDesc s' = some (d, n) ∧
        ∀ x ∈ t, isLineTerminator x = false := by
  intro s
  induction s with
  | nil => intro t d n h; cases h
  | cons c cs ih =>
    intro t d n h
    simp only [findTitle] at h
    cases hif : (if (" - ".data).isPrefixOf (c :: cs)
                 then findDesc ((c :: cs).drop 3) else none) with
    | some p =>
      obtain ⟨d', n'⟩ := p
      rw [hif] at h
      cases h
      by_cases hp : (" - ".data).isPrefixOf (c :: cs)
      · rw [if_pos hp] at hif
        obtain ⟨u, hu⟩ := List.isPrefixOf_iff_prefix.1 hp
        refine ⟨(c :: cs).drop 3, ?_, hif, by simp⟩
        conv_lhs => rw [← hu]
        have hueq : u = (c :: cs).drop 3 := by
          conv_rhs => rw [← hu]
          simp
        rw [← hueq]
        simp
      · rw [if_neg hp] at hif; cases hif
    | none =>
      rw [hif] at h
      by_cases hterm : isLineTerminator c = true
      · rw [if_pos hterm] at h; cases h
      · rw [if_neg hterm] at h
        cases hrec : findTitle cs with
        | none => rw [hrec] at h; cases h
        | some p =>
          obtain ⟨t', d', n'⟩ := p
          rw [hrec] at h
          cases h
          obtain ⟨s', hcs, hfd, hclean⟩ := ih hrec
          refine ⟨s', by simp [hcs], hfd, ?_⟩
          intro x hx
          rcases List.mem_cons.1 hx with hx | hx
          · rw [hx]; simpa using hterm
          · exact hclean x hx

/-- Completeness of the `(.*?) - (.*?) Match: (\d+)%` tail matcher on title
captures free of line terminators. -/
theorem findTitle_complete :
    ∀ (t : List Char) {s' d : List Char} {n : Nat},
      findDesc s' = some (d, n) → (∀ x ∈ t, isLineTerminator x = false) →
      (findTitle (t ++ " - ".data ++ s')).isSome := by
  intro t
  induction t with
  | nil =>
    intro s' d n hfd _
    have hp : (" - ".data).isPrefixOf ((" - ".data : List Char) ++ s') :=
      List.isPrefixOf_iff_prefix.2 ⟨s', rfl⟩
    have hdrop : ((" - ".data : List Char) ++ s').drop 3 = s' := rfl
    simp only [List.nil_append]
    rw [show ((" - ".data : List Char) ++ s') = ' ' :: ("- ".data ++ s') from rfl]
    simp only [findTitle]
    rw [show (' ' :: ("- ".data ++ s') : List Char) = " - ".data ++ s' from rfl,
      if_pos hp, hdrop, hfd]
    rfl
  | cons c cs ih =>
    intro s' d n hfd hclean
    simp only [List.cons_append, findTitle]
    cases hif : (if (" - ".data).isPrefixOf (c :: (cs ++ " - ".data ++ s'))
                 then findDesc ((c :: (cs ++ " - ".data ++ s')).drop 3) else none) with
    | some p => obtain ⟨d', n'⟩ := p; simp
    | none =>
      have hc : isLineTerminator c = false := hclean c (by simp)
      have hs := ih hfd fun x hx => hclean x (by simp [hx])
      cases hrec : findTitle (cs ++ " - ".data ++ s') with
      | none => rw [hrec] at hs; cases hs
      | some p => obtain ⟨t', d', n'⟩ := p; simp [hc, hrec]

/-- The shape `<ordinal>. <title> - <description> Match: <integer>%` of a
recommendation line, as an explicit decomposition: a nonempty digit run, the
literal `. `, a title, the literal ` - `, a description, the literal
` Match: `, a nonempty digit run and `%`, where the title and description
contain no line terminator (the regex `.` cannot match one). -/
def RecShape (line : List Char) : Prop :=
  ∃ ds t d ms rest : List Char,
    line = ds ++ '.' :: ' ' ::
      (t ++ " - ".data ++ (d ++ " Match: ".data ++ (ms ++ '%' :: rest))) ∧
    ds ≠ [] ∧ (∀ c ∈ ds, c.isDigit) ∧ ms ≠ [] ∧ (∀ c ∈ ms, c.isDigit) ∧
    (∀ c ∈ t, isLineTerminator c = false) ∧ (∀ c ∈ d, isLineTerminator c = false)

/-- Soundness of the line matcher: a successful parse decomposes the line
into the documented shape, and the captures are the shape's components. -/
theorem recLineParse_sound {line : List Char} {p : List Char × List Char × Nat}
    (h : recLineParse line = some p) :
    ∃ ds t d ms rest : List Char,
      line = ds ++ '.' :: ' ' ::
        (t ++ " - ".data ++ (d ++ " Match: ".data ++ (ms ++ '%' :: rest))) ∧
      ds ≠ [] ∧ (∀ c ∈ ds, c.isDigit) ∧ ms ≠ [] ∧ (∀ c ∈ ms, c.isDigit) ∧
      (∀ c ∈ t, isLineTerminator c = false) ∧
      (∀ c ∈ d, isLineTerminator c = false) ∧
      p = (t, d, digitsVal ms) := by
  obtain ⟨t, d, n⟩ := p
  simp only [recLineParse] at h
  by_cases hds : line.takeWhile Char.isDigit = []
  · rw [if_pos hds] at h; cases h
  · rw [if_neg hds, drop_takeWhile_length] at h
    split at h
    · next rest1 heq =>
      obtain ⟨s', hs', hfd, htclean⟩ := findTitle_sound h
      obtain ⟨rest2, hrest2, hmn, hdclean⟩ := findDesc_sound hfd
      obtain ⟨ms, rest3, hrest3, hmsne, hmsdig, hn⟩ := matchNumPct_sound hmn
      refine ⟨line.takeWhile Char.isDigit, t, d, ms, rest3, ?_, hds, ?_,
        hmsne, hmsdig, htclean, hdclean, ?_⟩
      · conv_lhs => rw [← List.takeWhile_append_dropWhile Char.isDigit line]
        rw [heq, hs', hrest2, hrest3]
      · exact fun c hc => List.mem_takeWhile_imp hc
      · rw [hn]
    · cases h

/-- Completeness of the line matcher: every line of the documented shape is
matched. -/
theorem recLineParse_complete {ds t d ms : List Char} (rest : List Char)
    (hds : ds ≠ []) (hdsdig : ∀ c ∈ ds, c.isDigit)
    (hms : ms ≠ []) (hmsdig : ∀ c ∈ ms, c.isDigit)
    (ht : ∀ c ∈ t, isLineTerminator c = false)
    (hd : ∀ c ∈ d, isLineTerminator c = false) :
    (recLineParse (ds ++ '.' :: ' ' ::
      (t ++ " - ".data ++ (d ++ " Match: ".data ++ (ms ++ '%' :: rest))))).isSome := by
  have hrun := takeWhile_run Char.isDigit ds '.'
    (' ' :: (t ++ " - ".data ++ (d ++ " Match: ".data ++ (ms ++ '%' :: rest))))
    hdsdig (by decide)
  have h1 : matchNumPct (ms ++ '%' :: rest) = some (digitsVal ms) :=
    matchNumPct_complete rest hms hmsdig
  have h2 := findDesc_complete d h1 hd
  obtain ⟨⟨dd, nn⟩, hfd⟩ := Option.isSome_iff_exists.1 h2
  have h3 := findTitle_complete t hfd ht
  obtain ⟨⟨tt, dd2, nn2⟩, hft⟩ := Option.isSome_iff_exists.1 h3
  simp only [recLineParse, drop_takeWhile_length, hrun.1, hrun.2, if_neg hds,
    List.drop_left, hft]
  rfl

/-- A line is matched by the line regex exactly when it has the documented
shape. -/
theorem recLineParse_isSome_iff (line : List Char) :
    (recLineParse line).isSome ↔ RecShape line := by
  constructor
  · intro h
    obtain ⟨p, hp⟩ := Option.isSome_iff_exists.1 h
    obtain ⟨ds, t, d, ms, rest, hline, hds, hdsdig, hms, hmsdig, htc, hdc, _⟩ :=
      recLineParse_sound hp
    exact ⟨ds, t, d, ms, rest, hline, hds, hdsdig, hms, hmsdig, htc, hdc⟩
  · rintro ⟨ds, t, d, ms, rest, hline, hds, hdsdig, hms, hmsdig, htc, hdc⟩
    rw [hline]
    exact recLineParse_complete rest hds hdsdig hms hmsdig htc hdc

/-- The first document's record builder succeeds exactly on lines of the
documented shape. -/
theorem recOfLine1_isSome_iff (line : List Char) :
    (recOfLine1 line).isSome ↔ RecShape line := by
  rw [← recLineParse_isSome_iff]
  simp [recOfLine1]

/-- Soundness of the third document's record builder: a parsed record's
fields are the trimmed captures and the digit run's value. -/
theorem recOfLine_sound {line : List Char} {r : Recommendation}
    (h : recOfLine line = some r) :
    ∃ ds t d ms rest : List Char,
      line = ds ++ '.' :: ' ' ::
        (t ++ " - ".data ++ (d ++ " Match: ".data ++ (ms ++ '%' :: rest))) ∧
      ds ≠ [] ∧ (∀ c ∈ ds, c.isDigit) ∧ ms ≠ [] ∧ (∀ c ∈ ms, c.isDigit) ∧
      r = ⟨String.mk (jsTrim t), String.mk (jsTrim d), digitsVal ms⟩ := by
  rw [recOfLine] at h
  obtain ⟨p, hp, hr⟩ := Option.map_eq_some'.1 h
  obtain ⟨ds, t, d, ms, rest, hline, hds, hdsdig, hms, hmsdig, _, _, hpe⟩ :=
    recLineParse_sound hp
  refine ⟨ds, t, d, ms, rest, hline, hds, hdsdig, hms, hmsdig, ?_⟩
  rw [← hr, hpe]

/-- Infixes of the remainder produced by `splitAtSub` are infixes of the
whole string. -/
theorem infix_of_splitAtSub_tail {pat text a rest sub : List Char}
    (h : splitAtSub pat text = some (a, rest)) (hsub : sub <:+: rest) :
    sub <:+: text := by
  obtain ⟨u, v, huv⟩ := hsub
  exact ⟨a ++ pat ++ u, v, by
    rw [splitAtSub_sound h, ← huv]; simp [List.append_assoc]⟩

/-- A list all of whose characters are whitespace trims to nothing. -/
theorem jsTrim_eq_nil {w : List Char} (hall : ∀ c ∈ w, isJsWhitespace c) :
    jsTrim w = [] := by
  have h1 : w.dropWhile isJsWhitespace = [] :=
    List.dropWhile_eq_nil_iff.2 hall
  simp [jsTrim, h1]

/-! ## Behaviour of `parseAnalysis` section by section -/

/-- The summary extracted from a text decomposed at the first occurrence of
the first header followed by the earliest occurrence of the second. -/
theorem parse_summary_eq {text : String} {a b c : List Char}
    (hdec : text.data = a ++ header1 ++ (b ++ header2 ++ c))
    (hmin1 : ∀ a' b', text.data = a' ++ header1 ++ b' → a.length ≤ a'.length)
    (hmin2 : ∀ b' c', b ++ header2 ++ c = b' ++ header2 ++ c' → b.length ≤ b'.length) :
    (parseAnalysis text).summary = String.mk (jsTrim b) := by
  have hs1 : splitAtSub header1 text.data = some (a, b ++ header2 ++ c) :=
    splitAtSub_eq_some_of_min hdec hmin1
  have hs2 : splitAtSub header2 (b ++ header2 ++ c) = some (b, c) :=
    splitAtSub_eq_some_of_min rfl hmin2
  simp only [parseAnalysis, hs1, hs2]

/-- If either summary marker is missing, the summary is empty. -/
theorem parse_summary_empty {text : String}
    (h : ¬ header1 <:+: text.data ∨ ¬ header2 <:+: text.data) :
    (parseAnalysis text).summary = "" := by
  rcases h with h | h
  · have h1 : splitAtSub header1 text.data = none := splitAtSub_eq_none_iff.2 h
    simp [parseAnalysis, h1]
  · cases hs : splitAtSub header1 text.data with
    | none => simp [parseAnalysis, hs]
    | some p =>
      obtain ⟨a, rest⟩ := p
      have h2 : splitAtSub header2 rest = none := by
        rw [splitAtSub_eq_none_iff]
        exact fun hin => h (infix_of_splitAtSub_tail hs hin)
      simp [parseAnalysis, hs, h2]

/-- The recommendations extracted from a text decomposed at the first
occurrence of the second header followed by the earliest occurrence of the
third. -/
theorem parse_recs_eq {text : String} {a b c : List Char}
    (hdec : text.data = a ++ header2 ++ (b ++ header3 ++ c))
    (hmin1 : ∀ a' b', text.data = a' ++ header2 ++ b' → a.length ≤ a'.length)
    (hmin2 : ∀ b' c', b ++ header3 ++ c = b' ++ header3 ++ c' → b.length ≤ b'.length) :
    (parseAnalysis text).recommendations = (splitNl (jsTrim b)).filterMap recOfLine := by
  have hs2 : splitAtSub header2 text.data = some (a, b ++ header3 ++ c) :=
    splitAtSub_eq_some_of_min hdec hmin1
  have hs3 : splitAtSub header3 (b ++ header3 ++ c) = some (b, c) :=
    splitAtSub_eq_some_of_min rfl hmin2
  simp only [parseAnalysis, hs2, hs3]
  rw [foldl_recStep]
  simp

/-- If either recommendations marker is missing, the list is empty. -/
theorem parse_recs_empty {text : String}
    (h : ¬ header2 <:+: text.data ∨ ¬ header3 <:+: text.data) :
    (parseAnalysis text).recommendations = [] := by
  rcases h with h | h
  · have h2 : splitAtSub header2 text.data = none := splitAtSub_eq_none_iff.2 h
    simp [parseAnalysis, h2]
  · cases hs : splitAtSub header2 text.data with
    | none => simp [parseAnalysis, hs]
    | some p =>
      obtain ⟨a, rest⟩ := p
      have h3 : splitAtSub header3 rest = none := by
        rw [splitAtSub_eq_none_iff]
        exact fun hin => h (infix_of_splitAtSub_tail hs hin)
      simp [parseAnalysis, hs, h3]

/-- The next steps extracted from a text decomposed at the first occurrence
of the third header. -/
theorem parse_nextSteps_eq {text : String} {a w : List Char}
    (hdec : text.data = a ++ header3 ++ w)
    (hmin : ∀ a' w', text.data = a' ++ header3 ++ w' → a.length ≤ a'.length) :
    (parseAnalysis text).nextSteps =
      (splitNl (jsTrim w)).map (fun l => String.mk (jsTrim (stripBullet l))) := by
  have hs : splitAtSub header3 text.data = some (a, w) :=
    splitAtSub_eq_some_of_min hdec hmin
  simp [parseAnalysis, hs]

/-- If the next-steps marker is missing, the list is empty. -/
theorem parse_nextSteps_empty {text : String} (h : ¬ header3 <:+: text.data) :
    (parseAnalysis text).nextSteps = [] := by
  have h3 : splitAtSub header3 text.data = none := splitAtSub_eq_none_iff.2 h
  simp [parseAnalysis, h3]

/-- Whatever the input, the recommendations are either empty or the parse of
the lines of some section. -/
theorem parse_recs_cases (text : String) :
    (parseAnalysis text).recommendations = [] ∨
    ∃ b, (parseAnalysis text).recommendations = (splitNl (jsTrim b)).filterMap recOfLine := by
  cases hs2 : splitAtSub header2 text.data with
  | none => exact Or.inl (by simp [parseAnalysis, hs2])
  | some p =>
    obtain ⟨a, rest⟩ := p
    cases hs3 : splitAtSub header3 rest with
    | none => exact Or.inl (by simp [parseAnalysis, hs2, hs3])
    | some q =>
      obtain ⟨b, c⟩ := q
      exact Or.inr ⟨b, by simp [parseAnalysis, hs2, hs3, foldl_recStep]⟩

/-! ## Behaviour of the first document's `parseAnalysis1` -/

/-- The summary extracted by the first document's parser from a text
decomposed at the first occurrence of the first header followed by the
earliest occurrence of the `**TOP 3` terminator. -/
theorem parse1_summary_eq {text : String} {a b c : List Char}
    (hdec : text.data = a ++ header1 ++ (b ++ topMarker ++ c))
    (hmin1 : ∀ a' b', text.data = a' ++ header1 ++ b' → a.length ≤ a'.length)
    (hmin2 : ∀ b' c', b ++ topMarker ++ c = b' ++ topMarker ++ c' → b.length ≤ b'.length) :
    (parseAnalysis1 text).summary = String.mk (jsTrim b) := by
  have hs1 : splitAtSub header1 text.data = some (a, b ++ topMarker ++ c) :=
    splitAtSub_eq_some_of_min hdec hmin1
  have hs2 : splitAtSub topMarker (b ++ topMarker ++ c) = some (b, c) :=
    splitAtSub_eq_some_of_min rfl hmin2
  simp only [parseAnalysis1, hs1, hs2]

/-- If the opening header or the `**TOP 3` terminator is missing, the first
document's summary is empty. -/
theorem parse1_summary_empty {text : String}
    (h : ¬ header1 <:+: text.data ∨ ¬ topMarker <:+: text.data) :
    (parseAnalysis1 text).summary = "" := by
  rcases h with h | h
  · have h1 : splitAtSub header1 text.data = none := splitAtSub_eq_none_iff.2 h
    simp [parseAnalysis1, h1]
  · cases hs : splitAtSub header1 text.data with
    | none => simp [parseAnalysis1, hs]
    | some p =>
      obtain ⟨a, rest⟩ := p
      have h2 : splitAtSub topMarker rest = none := by
        rw [splitAtSub_eq_none_iff]
        exact fun hin => h (infix_of_splitAtSub_tail hs hin)
      simp [parseAnalysis1, hs, h2]

/-- The recommendations extracted by the first document's parser from a text
decomposed at the first occurrence of the second header followed by the
earliest occurrence of the `**NEXT` terminator. -/
theorem parse1_recs_eq {text : String} {a b c : List Char}
    (hdec : text.data = a ++ header2 ++ (b ++ nextMarker ++ c))
    (hmin1 : ∀ a' b', text.data = a' ++ header2 ++ b' → a.length ≤ a'.length)
    (hmin2 : ∀ b' c', b ++ nextMarker ++ c = b' ++ nextMarker ++ c' → b.length ≤ b'.length) :
    (parseAnalysis1 text).recommendations = (splitNl (jsTrim b)).filterMap recOfLine1 := by
  have hs2 : splitAtSub header2 text.data = some (a, b ++ nextMarker ++ c) :=
    splitAtSub_eq_some_of_min hdec hmin1
  have hs3 : splitAtSub nextMarker (b ++ nextMarker ++ c) = some (b, c) :=
    splitAtSub_eq_some_of_min rfl hmin2
  simp only [parseAnalysis1, hs2, hs3]
  rw [foldl_recStep1]
  simp

/-- If the second header or the `**NEXT` terminator is missing, the first
document's recommendation list is empty. -/
theorem parse1_recs_empty {text : String}
    (h : ¬ header2 <:+: text.data ∨ ¬ nextMarker <:+: text.data) :
    (parseAnalysis1 text).recommendations = [] := by
  rcases h with h | h
  · have h2 : splitAtSub header2 text.data = none := splitAtSub_eq_none_iff.2 h
    simp [parseAnalysis1, h2]
  · cases hs : splitAtSub header2 text.data with
    | none => simp [parseAnalysis1, hs]
    | some p =>
      obtain ⟨a, rest⟩ := p
      have h3 : splitAtSub nextMarker rest = none := by
        rw [splitAtSub_eq_none_iff]
        exact fun hin => h (infix_of_splitAtSub_tail hs hin)
      simp [parseAnalysis1, hs, h3]

/-- If the next-steps header is missing, the first document's next-steps
list is empty. -/
theorem parse1_nextSteps_empty {text : String} (h : ¬ header3 <:+: text.data) :
    (parseAnalysis1 text).nextSteps = [] := by
  have h3 : splitAtSub header3 text.data = none := splitAtSub_eq_none_iff.2 h
  simp [parseAnalysis1, h3]


/-! ## The claims -/

/-- C1 (counterexample): the claim fails on the first document's parser
(the declaration at server.js lines 293–312 cited by the claim).  The input
`**CAREER PROFILE ANALYSIS:**x**TOP 3` does not contain the full second
header — a delimiting marker of the summary section — yet the summary is
`"x"`, not the empty default, because the regex of line 295 terminates the
capture at the literal prefix `**TOP 3`.  Likewise a recommendation section
closed by `**NEXT x` is parsed although `**NEXT STEPS:**` is absent. -/
theorem claim_C1_counterexample :
    (¬ header2 <:+: ("**CAREER PROFILE ANALYSIS:**x**TOP 3" : String).data ∧
     (parseAnalysis1 "**CAREER PROFILE ANALYSIS:**x**TOP 3").summary = "x") ∧
    (¬ header3 <:+: ("**TOP 3 CAREER RECOMMENDATIONS:**\n1. A - B Match: 5%\n**NEXT x" : String).data ∧
     (parseAnalysis1 "**TOP 3 CAREER RECOMMENDATIONS:**\n1. A - B Match: 5%\n**NEXT x").recommendations =
       [{ title := "A", description := "B", matchVal := 5 }]) := by
  decide

/-- C1 (amended): both embedded parsers are total Lean functions into
`StructuredAnalysis` and never fail.  For the third document's parser
(lines 647–682) the claim holds as stated: a section whose full-header
markers are not found yields the field's empty default.  For the first
document's parser (lines 293–312) the closing terminators are the literal
prefixes `**TOP 3` (summary) and `**NEXT` (recommendations): a section
whose markers, so adjusted, are not found yields the empty default. -/
theorem claim_C1_amended (text : String) :
    ((¬ header1 <:+: text.data ∨ ¬ header2 <:+: text.data →
        (parseAnalysis text).summary = "") ∧
     (¬ header2 <:+: text.data ∨ ¬ header3 <:+: text.data →
        (parseAnalysis text).recommendations = []) ∧
     (¬ header3 <:+: text.data → (parseAnalysis text).nextSteps = [])) ∧
    ((¬ header1 <:+: text.data ∨ ¬ topMarker <:+: text.data →
        (parseAnalysis1 text).summary = "") ∧
     (¬ header2 <:+: text.data ∨ ¬ nextMarker <:+: text.data →
        (parseAnalysis1 text).recommendations = []) ∧
     (¬ header3 <:+: text.data → (parseAnalysis1 text).nextSteps = [])) :=
  ⟨⟨parse_summary_empty, parse_recs_empty, parse_nextSteps_empty⟩,
   ⟨parse1_summary_empty, parse1_recs_empty, parse1_nextSteps_empty⟩⟩

/-- Witness for the amended C1 at the concrete input `"hello"`, which
contains none of the headers or terminators. -/
theorem claim_C1_amended_witness :
    ((parseAnalysis "hello").summary = "" ∧
     (parseAnalysis "hello").recommendations = [] ∧
     (parseAnalysis "hello").nextSteps = []) ∧
    ((parseAnalysis1 "hello").summary = "" ∧
     (parseAnalysis1 "hello").recommendations = [] ∧
     (parseAnalysis1 "hello").nextSteps = []) :=
  ⟨⟨(claim_C1_amended "hello").1.1 (Or.inl (by decide)),
    (claim_C1_amended "hello").1.2.1 (Or.inl (by decide)),
    (claim_C1_amended "hello").1.2.2 (by decide)⟩,
   ⟨(claim_C1_amended "hello").2.1 (Or.inl (by decide)),
    (claim_C1_amended "hello").2.2.1 (Or.inl (by decide)),
    (claim_C1_amended "hello").2.2.2 (by decide)⟩⟩

/-- C2 (counterexample): a text that contains the first two headers but no
`**NEXT STEPS:**` (and no `**NEXT` at all), whose recommendation section
consists of one well-formed line (the line parses: both record builders
succeed on it).  The claim asserts the recommendations are still populated
from their section; both parsers return `recommendations = []`, because
both recommendation regexes need their closing terminator (`**NEXT STEPS:**`
in the third document, the prefix `**NEXT` in the first). -/
theorem claim_C2_counterexample :
    header1 <:+: ("**CAREER PROFILE ANALYSIS:**\nGreat profile.\n**TOP 3 CAREER RECOMMENDATIONS:**\n1. Data Scientist - Analyzes data. Match: 85%" : String).data ∧
    header2 <:+: ("**CAREER PROFILE ANALYSIS:**\nGreat profile.\n**TOP 3 CAREER RECOMMENDATIONS:**\n1. Data Scientist - Analyzes data. Match: 85%" : String).data ∧
    ¬ header3 <:+: ("**CAREER PROFILE ANALYSIS:**\nGreat profile.\n**TOP 3 CAREER RECOMMENDATIONS:**\n1. Data Scientist - Analyzes data. Match: 85%" : String).data ∧
    (recOfLine ("1. Data Scientist - Analyzes data. Match: 85%" : String).data).isSome ∧
    (recOfLine1 ("1. Data Scientist - Analyzes data. Match: 85%" : String).data).isSome ∧
    parseAnalysis "**CAREER PROFILE ANALYSIS:**\nGreat profile.\n**TOP 3 CAREER RECOMMENDATIONS:**\n1. Data Scientist - Analyzes data. Match: 85%" =
      { summary := "Great profile.", recommendations := [], nextSteps := [] } ∧
    parseAnalysis1 "**CAREER PROFILE ANALYSIS:**\nGreat profile.\n**TOP 3 CAREER RECOMMENDATIONS:**\n1. Data Scientist - Analyzes data. Match: 85%" =
      { summary := "Great profile.", recommendations := [], nextSteps := [] } := by
  decide

/-- C2 (amended): for every text that does not contain `**NEXT STEPS:**`,
both parsers return `nextSteps = []` and the summary is still populated
from its own section; the recommendations are `[]` under the third
document's parser (its regex needs the full third header as terminator),
while under the first document's parser they are `[]` exactly when no
occurrence of the prefix `**NEXT` closes the section — any `**NEXT`, e.g.
from `**NEXT ACTIONS:**`, lets the section be parsed, as the concrete
instance in the second conjunct shows. -/
theorem claim_C2_amended :
    (∀ text : String, ¬ header3 <:+: text.data →
      (parseAnalysis text).nextSteps = [] ∧
      (parseAnalysis text).recommendations = [] ∧
      (parseAnalysis1 text).nextSteps = [] ∧
      (¬ nextMarker <:+: text.data → (parseAnalysis1 text).recommendations = []) ∧
      (∀ a b c : List Char,
        text.data = a ++ header2 ++ (b ++ nextMarker ++ c) →
        (∀ a' b', text.data = a' ++ header2 ++ b' → a.length ≤ a'.length) →
        (∀ b' c', b ++ nextMarker ++ c = b' ++ nextMarker ++ c' → b.length ≤ b'.length) →
        (parseAnalysis1 text).recommendations = (splitNl (jsTrim b)).filterMap recOfLine1) ∧
      (∀ a b c : List Char,
        text.data = a ++ header1 ++ (b ++ header2 ++ c) →
        (∀ a' b', text.data = a' ++ header1 ++ b' → a.length ≤ a'.length) →
        (∀ b' c', b ++ header2 ++ c = b' ++ header2 ++ c' → b.length ≤ b'.length) →
        (parseAnalysis text).summary = String.mk (jsTrim b)) ∧
      (∀ a b c : List Char,
        text.data = a ++ header1 ++ (b ++ topMarker ++ c) →
        (∀ a' b', text.data = a' ++ header1 ++ b' → a.length ≤ a'.length) →
        (∀ b' c', b ++ topMarker ++ c = b' ++ topMarker ++ c' → b.length ≤ b'.length) →
        (parseAnalysis1 text).summary = String.mk (jsTrim b))) ∧
    ((parseAnalysis1 "**CAREER PROFILE ANALYSIS:**p**TOP 3 CAREER RECOMMENDATIONS:**\n1. A - B Match: 5%\n**NEXT ACTIONS:**").recommendations =
       [{ title := "A", description := "B", matchVal := 5 }] ∧
     (parseAnalysis1 "**CAREER PROFILE ANALYSIS:**p**TOP 3 CAREER RECOMMENDATIONS:**\n1. A - B Match: 5%\n**NEXT ACTIONS:**").nextSteps = [] ∧
     ¬ header3 <:+: ("**CAREER PROFILE ANALYSIS:**p**TOP 3 CAREER RECOMMENDATIONS:**\n1. A - B Match: 5%\n**NEXT ACTIONS:**" : String).data) := by
  constructor
  · intro text h3
    exact ⟨parse_nextSteps_empty h3,
      parse_recs_empty (Or.inr h3),
      parse1_nextSteps_empty h3,
      fun hn => parse1_recs_empty (Or.inr hn),
      fun _ _ _ hdec m1 m2 => parse1_recs_eq hdec m1 m2,
      fun _ _ _ hdec m1 m2 => parse_summary_eq hdec m1 m2,
      fun _ _ _ hdec m1 m2 => parse1_summary_eq hdec m1 m2⟩
  · decide

/-- Witness for the amended C2 at the concrete counterexample text. -/
theorem claim_C2_amended_witness :
    (parseAnalysis "**CAREER PROFILE ANALYSIS:**\nGreat profile.\n**TOP 3 CAREER RECOMMENDATIONS:**\n1. Data Scientist - Analyzes data. Match: 85%").nextSteps = [] ∧
    (parseAnalysis "**CAREER PROFILE ANALYSIS:**\nGreat profile.\n**TOP 3 CAREER RECOMMENDATIONS:**\n1. Data Scientist - Analyzes data. Match: 85%").recommendations = [] ∧
    (parseAnalysis1 "**CAREER PROFILE ANALYSIS:**\nGreat profile.\n**TOP 3 CAREER RECOMMENDATIONS:**\n1. Data Scientist - Analyzes data. Match: 85%").nextSteps = [] ∧
    (parseAnalysis1 "**CAREER PROFILE ANALYSIS:**\nGreat profile.\n**TOP 3 CAREER RECOMMENDATIONS:**\n1. Data Scientist - Analyzes data. Match: 85%").recommendations = [] ∧
    (parseAnalysis "**CAREER PROFILE ANALYSIS:**\nGreat profile.\n**TOP 3 CAREER RECOMMENDATIONS:**\n1. Data Scientist - Analyzes data. Match: 85%").summary = String.mk (jsTrim "\nGreat profile.\n".data) := by
  have h := claim_C2_amended.1
    "**CAREER PROFILE ANALYSIS:**\nGreat profile.\n**TOP 3 CAREER RECOMMENDATIONS:**\n1. Data Scientist - Analyzes data. Match: 85%"
    (by decide)
  have hm1 : splitAtSub header1
      ("**CAREER PROFILE ANALYSIS:**\nGreat profile.\n**TOP 3 CAREER RECOMMENDATIONS:**\n1. Data Scientist - Analyzes data. Match: 85%" : String).data =
      some ([], "\nGreat profile.\n".data ++ header2 ++
        "\n1. Data Scientist - Analyzes data. Match: 85%".data) := by decide
  have hm2 : splitAtSub header2
      ("\nGreat profile.\n".data ++ header2 ++
        "\n1. Data Scientist - Analyzes data. Match: 85%".data) =
      some ("\nGreat profile.\n".data,
        "\n1. Data Scientist - Analyzes data. Match: 85%".data) := by decide
  exact ⟨h.1, h.2.1, h.2.2.1, h.2.2.2.1 (by decide),
    h.2.2.2.2.2.1 [] "\nGreat profile.\n".data
      "\n1. Data Scientist - Analyzes data. Match: 85%".data
      (by decide) (splitAtSub_min hm1) (splitAtSub_min hm2)⟩

/-- C3 (counterexample): the claim fails on the parser it cites (server.js
lines 297–306): that parser's section ends at the earliest occurrence of
the prefix `**NEXT`, not at the third header.  In the input below, the
substring strictly between the second and third headers holds two
well-formed recommendation lines (its line parse has two records), but a
stray `**NEXT ROUND` closes the section early and the parser returns only
the first record. -/
theorem claim_C3_counterexample :
    ("**CAREER PROFILE ANALYSIS:**s**TOP 3 CAREER RECOMMENDATIONS:**\n1. A - B Match: 5%\n**NEXT ROUND\n2. C - D Match: 6%\n**NEXT STEPS:**x" : String).data =
      "**CAREER PROFILE ANALYSIS:**s".data ++ header2 ++
        ("\n1. A - B Match: 5%\n**NEXT ROUND\n2. C - D Match: 6%\n".data ++ header3 ++ "x".data) ∧
    ((splitNl (jsTrim "\n1. A - B Match: 5%\n**NEXT ROUND\n2. C - D Match: 6%\n".data)).filterMap recOfLine1).length = 2 ∧
    (parseAnalysis1 "**CAREER PROFILE ANALYSIS:**s**TOP 3 CAREER RECOMMENDATIONS:**\n1. A - B Match: 5%\n**NEXT ROUND\n2. C - D Match: 6%\n**NEXT STEPS:**x").recommendations =
      [{ title := "A", description := "B", matchVal := 5 }] := by
  decide

/-- C3 (amended): under the cited parser (lines 297–306) the
recommendations are one record per line of the section between the second
header and the earliest following occurrence of the prefix `**NEXT` — not
the third header — that matches the line-regex shape, in source order, with
untrimmed captures; a line matches exactly when it has the shape
`<digits>. <title> - <description> Match: <digits>%` with no line
terminator inside the title or description (so a line such as
`1. A\rB - C Match: 5%` is skipped), and the stated concrete example
yields exactly the one expected record. -/
theorem claim_C3_amended :
    (∀ line : List Char, (recOfLine1 line).isSome ↔ RecShape line) ∧
    (recOfLine1 ("1. A\rB - C Match: 5%" : String).data = none) ∧
    (∀ (text : String) (a b c : List Char),
      text.data = a ++ header2 ++ (b ++ nextMarker ++ c) →
      (∀ a' b', text.data = a' ++ header2 ++ b' → a.length ≤ a'.length) →
      (∀ b' c', b ++ nextMarker ++ c = b' ++ nextMarker ++ c' → b.length ≤ b'.length) →
      (parseAnalysis1 text).recommendations = (splitNl (jsTrim b)).filterMap recOfLine1) ∧
    (parseAnalysis1 "**CAREER PROFILE ANALYSIS:**\nGreat profile.\n**TOP 3 CAREER RECOMMENDATIONS:**\n1. Data Scientist - Analyzes data. Match: 85%\n**NEXT STEPS:**\n- Learn Python").recommendations =
      [{ title := "Data Scientist", description := "Analyzes data.", matchVal := 85 }] := by
  refine ⟨recOfLine1_isSome_iff, by decide, ?_, by decide⟩
  intro text a b c hdec hmin1 hmin2
  exact parse1_recs_eq hdec hmin1 hmin2

/-- Witness for the quantified part of the amended C3 at the concrete
example text. -/
theorem claim_C3_amended_witness :
    (parseAnalysis1 "**CAREER PROFILE ANALYSIS:**\nGreat profile.\n**TOP 3 CAREER RECOMMENDATIONS:**\n1. Data Scientist - Analyzes data. Match: 85%\n**NEXT STEPS:**\n- Learn Python").recommendations =
      (splitNl (jsTrim "\n1. Data Scientist - Analyzes data. Match: 85%\n".data)).filterMap recOfLine1 := by
  have hm1 : splitAtSub header2
      ("**CAREER PROFILE ANALYSIS:**\nGreat profile.\n**TOP 3 CAREER RECOMMENDATIONS:**\n1. Data Scientist - Analyzes data. Match: 85%\n**NEXT STEPS:**\n- Learn Python" : String).data =
      some ("**CAREER PROFILE ANALYSIS:**\nGreat profile.\n".data,
        "\n1. Data Scientist - Analyzes data. Match: 85%\n".data ++ nextMarker ++
          " STEPS:**\n- Learn Python".data) := by decide
  have hm2 : splitAtSub nextMarker
      ("\n1. Data Scientist - Analyzes data. Match: 85%\n".data ++ nextMarker ++
        " STEPS:**\n- Learn Python".data) =
      some ("\n1. Data Scientist - Analyzes data. Match: 85%\n".data,
        " STEPS:**\n- Learn Python".data) := by decide
  exact claim_C3_amended.2.2.1
    "**CAREER PROFILE ANALYSIS:**\nGreat profile.\n**TOP 3 CAREER RECOMMENDATIONS:**\n1. Data Scientist - Analyzes data. Match: 85%\n**NEXT STEPS:**\n- Learn Python"
    "**CAREER PROFILE ANALYSIS:**\nGreat profile.\n".data
    "\n1. Data Scientist - Analyzes data. Match: 85%\n".data
    " STEPS:**\n- Learn Python".data
    (by decide) (splitAtSub_min hm1) (splitAtSub_min hm2)

/-- C4 (counterexample): the claim fails on the first document's parser
(cited lines 295–296), whose summary capture ends at the prefix `**TOP 3`.
First input: the full second header is absent, yet the summary is `"y"`
rather than empty.  Second input: the text decomposes as the first header,
then `a**TOP 3b`, then the full second header, so the claim predicts the
summary `a**TOP 3b` — but the capture stops at the earlier prefix
occurrence and the summary is `"a"`. -/
theorem claim_C4_counterexample :
    (¬ header2 <:+: ("**CAREER PROFILE ANALYSIS:**y**TOP 3" : String).data ∧
     (parseAnalysis1 "**CAREER PROFILE ANALYSIS:**y**TOP 3").summary = "y") ∧
    (("**CAREER PROFILE ANALYSIS:**a**TOP 3b**TOP 3 CAREER RECOMMENDATIONS:**" : String).data =
        [] ++ header1 ++ ("a**TOP 3b".data ++ header2 ++ []) ∧
     splitAtSub header2 "a**TOP 3b**TOP 3 CAREER RECOMMENDATIONS:**".data =
        some ("a**TOP 3b".data, []) ∧
     (parseAnalysis1 "**CAREER PROFILE ANALYSIS:**a**TOP 3b**TOP 3 CAREER RECOMMENDATIONS:**").summary = "a" ∧
     ("a" : String) ≠ String.mk (jsTrim "a**TOP 3b".data)) := by
  decide

/-- C4 (amended): under the first document's parser the summary is the
whitespace-trimmed substring strictly between the first occurrence of the
first header and the earliest following occurrence of the prefix `**TOP 3`,
and it is empty when the first header or that prefix is missing; under the
third document's parser the claim holds as originally stated, with the full
second header as terminator. -/
theorem claim_C4_amended :
    (∀ (text : String) (a b c : List Char),
      text.data = a ++ header1 ++ (b ++ topMarker ++ c) →
      (∀ a' b', text.data = a' ++ header1 ++ b' → a.length ≤ a'.length) →
      (∀ b' c', b ++ topMarker ++ c = b' ++ topMarker ++ c' → b.length ≤ b'.length) →
      (parseAnalysis1 text).summary = String.mk (jsTrim b)) ∧
    (∀ text : String, ¬ header1 <:+: text.data ∨ ¬ topMarker <:+: text.data →
      (parseAnalysis1 text).summary = "") ∧
    (∀ (text : String) (a b c : List Char),
      text.data = a ++ header1 ++ (b ++ header2 ++ c) →
      (∀ a' b', text.data = a' ++ header1 ++ b' → a.length ≤ a'.length) →
      (∀ b' c', b ++ header2 ++ c = b' ++ header2 ++ c' → b.length ≤ b'.length) →
      (parseAnalysis text).summary = String.mk (jsTrim b)) ∧
    (∀ text : String, ¬ header1 <:+: text.data ∨ ¬ header2 <:+: text.data →
      (parseAnalysis text).summary = "") :=
  ⟨fun _ _ _ _ hdec hmin1 hmin2 => parse1_summary_eq hdec hmin1 hmin2,
   fun _ h => parse1_summary_empty h,
   fun _ _ _ _ hdec hmin1 hmin2 => parse_summary_eq hdec hmin1 hmin2,
   fun _ h => parse_summary_empty h⟩

/-- Witness for the amended C4: both parsers at a concrete three-header
text, and both at texts with no headers. -/
theorem claim_C4_amended_witness :
    (parseAnalysis1 "**CAREER PROFILE ANALYSIS:**\nGreat profile.\n**TOP 3 CAREER RECOMMENDATIONS:**\n1. Data Scientist - Analyzes data. Match: 85%\n**NEXT STEPS:**\n- Learn Python").summary =
      String.mk (jsTrim "\nGreat profile.\n".data) ∧
    (parseAnalysis1 "x").summary = "" ∧
    (parseAnalysis "**CAREER PROFILE ANALYSIS:**\nGreat profile.\n**TOP 3 CAREER RECOMMENDATIONS:**\n1. Data Scientist - Analyzes data. Match: 85%\n**NEXT STEPS:**\n- Learn Python").summary =
      String.mk (jsTrim "\nGreat profile.\n".data) ∧
    (parseAnalysis "no headers here").summary = "" := by
  have hm1 : splitAtSub header1
      ("**CAREER PROFILE ANALYSIS:**\nGreat profile.\n**TOP 3 CAREER RECOMMENDATIONS:**\n1. Data Scientist - Analyzes data. Match: 85%\n**NEXT STEPS:**\n- Learn Python" : String).data =
      some ([], "\nGreat profile.\n".data ++ topMarker ++
        " CAREER RECOMMENDATIONS:**\n1. Data Scientist - Analyzes data. Match: 85%\n**NEXT STEPS:**\n- Learn Python".data) := by
    decide
  have hm2 : splitAtSub topMarker
      ("\nGreat profile.\n".data ++ topMarker ++
        " CAREER RECOMMENDATIONS:**\n1. Data Scientist - Analyzes data. Match: 85%\n**NEXT STEPS:**\n- Learn Python".data) =
      some ("\nGreat profile.\n".data,
        " CAREER RECOMMENDATIONS:**\n1. Data Scientist - Analyzes data. Match: 85%\n**NEXT STEPS:**\n- Learn Python".data) := by
    decide
  have hm3 : splitAtSub header1
      ("**CAREER PROFILE ANALYSIS:**\nGreat profile.\n**TOP 3 CAREER RECOMMENDATIONS:**\n1. Data Scientist - Analyzes data. Match: 85%\n**NEXT STEPS:**\n- Learn Python" : String).data =
      some ([], "\nGreat profile.\n".data ++ header2 ++
        "\n1. Data Scientist - Analyzes data. Match: 85%\n**NEXT STEPS:**\n- Learn Python".data) := by
    decide
  have hm4 : splitAtSub header2
      ("\nGreat profile.\n".data ++ header2 ++
        "\n1. Data Scientist - Analyzes data. Match: 85%\n**NEXT STEPS:**\n- Learn Python".data) =
      some ("\nGreat profile.\n".data,
        "\n1. Data Scientist - Analyzes data. Match: 85%\n**NEXT STEPS:**\n- Learn Python".data) := by
    decide
  exact ⟨claim_C4_amended.1
      "**CAREER PROFILE ANALYSIS:**\nGreat profile.\n**TOP 3 CAREER RECOMMENDATIONS:**\n1. Data Scientist - Analyzes data. Match: 85%\n**NEXT STEPS:**\n- Learn Python"
      [] "\nGreat profile.\n".data
      " CAREER RECOMMENDATIONS:**\n1. Data Scientist - Analyzes data. Match: 85%\n**NEXT STEPS:**\n- Learn Python".data
      (by decide) (splitAtSub_min hm1) (splitAtSub_min hm2),
    claim_C4_amended.2.1 "x" (Or.inl (by decide)),
    claim_C4_amended.2.2.1
      "**CAREER PROFILE ANALYSIS:**\nGreat profile.\n**TOP 3 CAREER RECOMMENDATIONS:**\n1. Data Scientist - Analyzes data. Match: 85%\n**NEXT STEPS:**\n- Learn Python"
      [] "\nGreat profile.\n".data
      "\n1. Data Scientist - Analyzes data. Match: 85%\n**NEXT STEPS:**\n- Learn Python".data
      (by decide) (splitAtSub_min hm3) (splitAtSub_min hm4),
    claim_C4_amended.2.2.2 "no headers here" (Or.inl (by decide))⟩

/-- C5 (counterexample): the claim that every parsed match value is at most
100 is false — the digit run is unbounded, so a section line
`1. A - B Match: 150%` produces a record with match value 150. -/
theorem claim_C5_counterexample :
    ¬ (∀ (text : String), ∀ r ∈ (parseAnalysis text).recommendations,
        r.matchVal ≤ 100) := by
  intro hall
  have h := hall
    "**CAREER PROFILE ANALYSIS:**\nS\n**TOP 3 CAREER RECOMMENDATIONS:**\n1. A - B Match: 150%\n**NEXT STEPS:**\n- x"
    { title := "A", description := "B", matchVal := 150 } (by decide)
  exact absurd h (by decide)

/-- C5 (amended): every record in the recommendations carries a match value
that is the numeric value of a nonempty decimal digit run from its source
line — a nonnegative integer, with no upper bound enforced. -/
theorem claim_C5_amended (text : String) :
    ∀ r ∈ (parseAnalysis text).recommendations,
      ∃ ms : List Char, ms ≠ [] ∧ (∀ c ∈ ms, c.isDigit) ∧
        r.matchVal = digitsVal ms := by
  intro r hr
  rcases parse_recs_cases text with hnil | ⟨b, hb⟩
  · rw [hnil] at hr; cases hr
  · rw [hb] at hr
    obtain ⟨line, _, hline⟩ := List.mem_filterMap.1 hr
    obtain ⟨ds, t, d, ms, rest, _, _, _, hms, hmsdig, hrec⟩ := recOfLine_sound hline
    exact ⟨ms, hms, hmsdig, by rw [hrec]⟩

/-- Witness for the amended C5 at the concrete example record. -/
theorem claim_C5_amended_witness :
    ∃ ms : List Char, ms ≠ [] ∧ (∀ c ∈ ms, c.isDigit) ∧
      (85 : Nat) = digitsVal ms :=
  claim_C5_amended
    "**CAREER PROFILE ANALYSIS:**\nGreat profile.\n**TOP 3 CAREER RECOMMENDATIONS:**\n1. Data Scientist - Analyzes data. Match: 85%\n**NEXT STEPS:**\n- Learn Python"
    { title := "Data Scientist", description := "Analyzes data.", matchVal := 85 }
    (by decide)

/-- C10: whenever the text contains `**NEXT STEPS:**`, the next-steps list
has at least one element; the section content (from the first occurrence of
the header to the end of the text) is trimmed and split on newlines, each
line bullet-stripped and trimmed, with no filtering of empties — so an
entirely whitespace section yields exactly one empty-string element. -/
theorem claim_C10_nextSteps :
    (∀ text : String, header3 <:+: text.data →
      1 ≤ (parseAnalysis text).nextSteps.length) ∧
    (∀ (text : String) (a w : List Char),
      text.data = a ++ header3 ++ w →
      (∀ a' w', text.data = a' ++ header3 ++ w' → a.length ≤ a'.length) →
      (parseAnalysis text).nextSteps =
        (splitNl (jsTrim w)).map (fun l => String.mk (jsTrim (stripBullet l)))) ∧
    (∀ (text : String) (a w : List Char),
      text.data = a ++ header3 ++ w →
      (∀ a' w', text.data = a' ++ header3 ++ w' → a.length ≤ a'.length) →
      (∀ c ∈ w, isJsWhitespace c) →
      (parseAnalysis text).nextSteps = [""]) := by
  refine ⟨?_, ?_, ?_⟩
  · intro text hinf
    cases hs : splitAtSub header3 text.data with
    | none => exact absurd hinf (splitAtSub_eq_none_iff.1 hs)
    | some p =>
      obtain ⟨a, w⟩ := p
      have : (parseAnalysis text).nextSteps =
          (splitNl (jsTrim w)).map (fun l => String.mk (jsTrim (stripBullet l))) := by
        simp [parseAnalysis, hs]
      rw [this, List.length_map]
      exact List.length_pos.2 (splitNl_ne_nil _)
  · intro text a w hdec hmin
    exact parse_nextSteps_eq hdec hmin
  · intro text a w hdec hmin hws
    rw [parse_nextSteps_eq hdec hmin, jsTrim_eq_nil hws]
    decide

/-- Witness for C10 at the concrete input `"abc**NEXT STEPS:**\n  "`, whose
section is whitespace-only. -/
theorem claim_C10_nextSteps_witness :
    1 ≤ (parseAnalysis "abc**NEXT STEPS:**\n  ").nextSteps.length ∧
    (parseAnalysis "abc**NEXT STEPS:**\n  ").nextSteps = [""] :=
 by
  have hm : splitAtSub header3 ("abc**NEXT STEPS:**\n  " : String).data =
      some ("abc".data, "\n  ".data) := by decide
  exact ⟨claim_C10_nextSteps.1 "abc**NEXT STEPS:**\n  " ⟨"abc".data, "\n  ".data, by decide⟩,
   claim_C10_nextSteps.2.2 "abc**NEXT STEPS:**\n  " "abc".data "\n  ".data
     (by decide) (splitAtSub_min hm) (by decide)⟩

/-! ## Claims about the profile extractor -/

/-- Boolean test that an entry's key parses to the given question id. -/
def hasQid (n : Int) (e : String × String) : Bool :=
  jsParseInt e.1 = some n

/-- The `if`-guarded tag contribution is the contribution of the entries
selected by `hasQid`. -/
theorem flatMap_if_eq (n : Int) (tags : String → List String) :
    ∀ l : List (String × String),
      l.flatMap (fun e => if jsParseInt e.1 = some n then tags e.2 else []) =
      (l.filter (hasQid n)).flatMap (fun e => tags e.2) := by
  intro l
  induction l with
  | nil => rfl
  | cons e es ih =>
    by_cases h : jsParseInt e.1 = some n <;>
      simp [List.filter_cons, hasQid, h, ih]

/-- A list whose `snd` projection is a one-element list is a one-element
list of a pair. -/
theorem map_snd_singleton {l : List (String × String)} {v : String}
    (h : l.map Prod.snd = [v]) : ∃ k, l = [(k, v)] := by
  cases l with
  | nil => cases h
  | cons e es =>
    cases es with
    | nil =>
      simp only [List.map_cons, List.map_nil, List.cons.injEq, and_true] at h
      exact ⟨e.1, by simp [Prod.ext_iff, h]⟩
    | cons f fs => simp at h

/-- C6: `extractProfileFromAnswers` never fails and has no side effects (it
is a pure total Lean function), and an input with no entry for any of the
recognized question ids 1, 2, 3, 4, 7, 10 — including the empty mapping —
yields the all-default profile, whose fields are
`interests = []`, `skills = []`, `experience = ""`, `workStyle = ""`,
`careerGoals = ""`, `industry = ""`. -/
theorem claim_C6_defaults (answers : List (String × String))
    (h : ∀ e ∈ answers, jsParseInt e.1 ≠ some 1 ∧ jsParseInt e.1 ≠ some 2 ∧
      jsParseInt e.1 ≠ some 3 ∧ jsParseInt e.1 ≠ some 4 ∧
      jsParseInt e.1 ≠ some 7 ∧ jsParseInt e.1 ≠ some 10) :
    extractProfileFromAnswers answers = emptyProfile ∧
    emptyProfile.interests = [] ∧ emptyProfile.skills = [] ∧
    emptyProfile.experience = "" ∧ emptyProfile.workStyle = "" ∧
    emptyProfile.careerGoals = "" ∧ emptyProfile.industry = "" := by
  refine ⟨?_, rfl, rfl, rfl, rfl, rfl, rfl⟩
  unfold extractProfileFromAnswers
  induction answers with
  | nil => rfl
  | cons e es ih =>
    obtain ⟨h1, h2, h3, h4, h7, h10⟩ := h e (by simp)
    rw [List.foldl_cons, applyAnswer_unrecognized _ _ h1 h2 h3 h4 h7 h10]
    exact ih fun x hx => h x (by simp [hx])

/-- Witness for C6 at two concrete inputs: entries with only unrecognized
keys, and the empty mapping. -/
theorem claim_C6_defaults_witness :
    extractProfileFromAnswers [("99", "x"), ("banana", "y")] = emptyProfile ∧
    extractProfileFromAnswers [] = emptyProfile :=
  ⟨(claim_C6_defaults [("99", "x"), ("banana", "y")] (by decide)).1,
   (claim_C6_defaults [] (by decide)).1⟩

/-- C7: the extractor is order-independent across distinct question ids —
permuting the iteration order of a mapping in which no two entries share a
numeric question id yields an identical profile (record equality: all six
fields equal). -/
theorem claim_C7_order_independent (l₁ l₂ : List (String × String))
    (hperm : l₁.Perm l₂)
    (huniq : ∀ e₁ ∈ l₁, ∀ e₂ ∈ l₁,
      jsParseInt e₁.1 = jsParseInt e₂.1 → jsParseInt e₁.1 = none ∨ e₁ = e₂) :
    extractProfileFromAnswers l₁ = extractProfileFromAnswers l₂ := by
  unfold extractProfileFromAnswers
  refine hperm.foldl_eq' ?_ emptyProfile
  intro x hx y hy z
  by_cases hxy : x = y
  · rw [hxy]
  · by_cases heq : jsParseInt x.1 = jsParseInt y.1
    · rcases huniq x hx y hy heq with hnone | hcontra
      · exact applyAnswer_comm x y (Or.inr hnone) z
      · exact absurd hcontra hxy
    · exact applyAnswer_comm x y (Or.inl heq) z

/-- Witness for C7 at a concrete permutation of a three-entry mapping. -/
theorem claim_C7_order_independent_witness :
    extractProfileFromAnswers [("1", "analytical"), ("2", "remote"), ("zz", "n")] =
      extractProfileFromAnswers [("zz", "n"), ("2", "remote"), ("1", "analytical")] :=
  claim_C7_order_independent
    [("1", "analytical"), ("2", "remote"), ("zz", "n")]
    [("zz", "n"), ("2", "remote"), ("1", "analytical")]
    (by decide) (by decide)

/-- C8: an input containing the entry id 1 ↦ `"analytical"` and the entry
id 7 ↦ `"technical"`, and no other entries for ids 1 or 7, yields
`interests = ["Problem Solving", "Analysis"]` and
`skills = ["Technical Skills", "Programming"]`. -/
theorem claim_C8_analytical_technical (answers : List (String × String))
    (h1 : (answers.filter (hasQid 1)).map Prod.snd = ["analytical"])
    (h7 : (answers.filter (hasQid 7)).map Prod.snd = ["technical"]) :
    (extractProfileFromAnswers answers).interests = ["Problem Solving", "Analysis"] ∧
    (extractProfileFromAnswers answers).skills = ["Technical Skills", "Programming"] := by
  obtain ⟨k1, hk1⟩ := map_snd_singleton h1
  obtain ⟨k7, hk7⟩ := map_snd_singleton h7
  constructor
  · rw [extractProfileFromAnswers, foldl_interests, flatMap_if_eq, hk1]
    simp [interestTags, emptyProfile]
  · rw [extractProfileFromAnswers, foldl_skills, flatMap_if_eq, hk7]
    simp [skillTags, emptyProfile]

/-- Witness for C8 at a concrete four-entry mapping. -/
theorem claim_C8_analytical_technical_witness :
    (extractProfileFromAnswers
      [("2", "remote"), ("1", "analytical"), ("7", "technical"), ("zz", "x")]).interests =
        ["Problem Solving", "Analysis"] ∧
    (extractProfileFromAnswers
      [("2", "remote"), ("1", "analytical"), ("7", "technical"), ("zz", "x")]).skills =
        ["Technical Skills", "Programming"] :=
  claim_C8_analytical_technical
    [("2", "remote"), ("1", "analytical"), ("7", "technical"), ("zz", "x")]
    (by decide) (by decide)

/-- C9: an input whose id-3 entry is `"impact"` yields the one fixed
career-goals sentence regardless of the other entries, and an input whose
only id-3 entries carry an unrecognized code such as `"unknown-code"`
leaves `careerGoals` empty. -/
theorem claim_C9_careerGoals :
    (∀ answers : List (String × String),
      (∃ e ∈ answers, jsParseInt e.1 = some 3 ∧ e.2 = "impact") →
      (∀ e ∈ answers, jsParseInt e.1 = some 3 → e.2 = "impact") →
      (extractProfileFromAnswers answers).careerGoals =
        "Making positive social impact") ∧
    (∀ answers : List (String × String),
      (∀ e ∈ answers, jsParseInt e.1 = some 3 → e.2 = "unknown-code") →
      (extractProfileFromAnswers answers).careerGoals = "") := by
  constructor
  · intro answers hex hall
    unfold extractProfileFromAnswers
    rw [foldl_careerGoals]
    apply lastWins_const
    · intro x hx
      obtain ⟨e, he, hsel⟩ := List.mem_filterMap.1 hx
      by_cases hid : jsParseInt e.1 = some 3
      · rw [if_pos hid, hall e he hid] at hsel
        have : (some "Making positive social impact" : Option String) = some x := by
          rw [← hsel]; rfl
        exact (Option.some.injEq _ _ ▸ this).symm
      · rw [if_neg hid] at hsel; cases hsel
    · obtain ⟨e, he, hid, himp⟩ := hex
      intro hnil
      have hnone := List.filterMap_eq_nil_iff.1 hnil e he
      rw [if_pos hid, himp] at hnone
      exact absurd hnone (by decide)
  · intro answers hall
    unfold extractProfileFromAnswers
    rw [foldl_careerGoals]
    have hnil : (answers.filterMap fun e =>
        if jsParseInt e.1 = some 3 then goalSentence? e.2 else none) = [] := by
      rw [List.filterMap_eq_nil_iff]
      intro e he
      by_cases hid : jsParseInt e.1 = some 3
      · rw [if_pos hid, hall e he hid]; decide
      · rw [if_neg hid]
    rw [hnil]
    rfl

/-- Witness for C9 at concrete one- and two-entry mappings. -/
theorem claim_C9_careerGoals_witness :
    (extractProfileFromAnswers [("3", "impact"), ("2", "remote")]).careerGoals =
      "Making positive social impact" ∧
    (extractProfileFromAnswers [("3", "unknown-code")]).careerGoals = "" :=
  ⟨claim_C9_careerGoals.1 [("3", "impact"), ("2", "remote")]
    ⟨("3", "impact"), by decide, by decide, rfl⟩ (by decide),
   claim_C9_careerGoals.2 [("3", "unknown-code")] (by decide)⟩

end CareerAdvisor
